import Mathlib

/-!
Verification of the Recipe33 meal-planning core against its specification.

The definitions below are a shallow embedding of the TypeScript source:
`src/types.ts` (domain records), `src/App.tsx` (planning state machine,
macro aggregator, shopping-list aggregation, persistence load effect).
JavaScript numbers that only ever hold integral macro values are modelled
as `Int`; fields that may transiently hold non-numeric text (the editable
macro cells) are modelled by `NumVal`.  ISO date strings are compared with
code-unit lexicographic order, exactly as the `>=` / `<=` operators of the
source compare them.
-/

namespace Recipe33

/-- The three variation tags of `RecipeAnalysis.variations` (src/types.ts). -/
inductive VariationTag where
  | Proteins
  | Balanced
  | Carbs
deriving DecidableEq, Repr

/-- A JavaScript value sitting in a numeric field of an ingredient row:
either an actual number, or a missing / non-numeric value (for which
`Number(x)` yields `NaN`).  The editable table cells can transiently hold
arbitrary text, so the aggregator must coerce. -/
inductive NumVal where
  | num (n : Int)
  | nonnum
deriving DecidableEq, Repr

/-- Models the source expression `Number(x) || 0`: a non-numeric value
coerces to `NaN`, which `|| 0` turns into `0`; a numeric value is kept
(`0 || 0` is still `0`). -/
def NumVal.toNumberOrZero : NumVal → Int
  | .num n => n
  | .nonnum => 0

/-- IngredientItem from src/types.ts. -/
structure IngredientItem where
  amount : String
  item : String
  calories : NumVal
  protein : NumVal
  fat : NumVal
  carbs : NumVal
deriving DecidableEq, Repr

/-- MacroData from src/types.ts. -/
structure MacroData where
  calories : Int
  protein : Int
  fat : Int
  carbs : Int
deriving DecidableEq, Repr

/-- CookingStep from src/types.ts; `timer_seconds` is optional. -/
structure CookingStep where
  text : String
  timer_seconds : Option Int
deriving DecidableEq, Repr

/-- RecipeVariation from src/types.ts. -/
structure RecipeVariation where
  ingredients : List IngredientItem
  notes : String
  steps : List CookingStep
deriving DecidableEq, Repr

/-- The fixed three-key variation map of a RecipeAnalysis (src/types.ts). -/
structure VariationMap where
  Proteins : RecipeVariation
  Balanced : RecipeVariation
  Carbs : RecipeVariation
deriving DecidableEq, Repr

/-- Indexing `analysis.variations[tag]`. -/
def VariationMap.get (m : VariationMap) : VariationTag → RecipeVariation
  | .Proteins => m.Proteins
  | .Balanced => m.Balanced
  | .Carbs => m.Carbs

/-- The spread `{ ...variations, [tag]: rv }` of the source. -/
def VariationMap.set (m : VariationMap) (t : VariationTag) (rv : RecipeVariation) :
    VariationMap :=
  match t with
  | .Proteins => { m with Proteins := rv }
  | .Balanced => { m with Balanced := rv }
  | .Carbs => { m with Carbs := rv }

/-- RecipeAnalysis from src/types.ts. -/
structure RecipeAnalysis where
  title : String
  original_macros : MacroData
  variations : VariationMap
deriving DecidableEq, Repr

/-- SavedRecipe from src/types.ts; `id` is `Date.now().toString()` and
`timestamp` is `Date.now()` at creation. -/
structure SavedRecipe where
  id : String
  title : String
  timestamp : Nat
  analysis : RecipeAnalysis
deriving DecidableEq, Repr

/-- DayPlan from src/types.ts: `recipeId : string | null`, `variation?`. -/
structure DayPlan where
  date : String
  recipeId : Option String
  variation : Option VariationTag
deriving DecidableEq, Repr

/-- AppState from src/types.ts. -/
inductive ViewState where
  | HOME
  | COOKBOOK
  | CONFIG
  | INPUT
  | ANALYZING
  | RESULTS
  | SHOPPING_LIST
  | ERROR
  | RECIPE_SELECTOR
deriving DecidableEq, Repr

/-- Code-unit lexicographic comparison of character lists; the order that
JavaScript `<=` / `>=` use on strings. -/
def charListLe : List Char → List Char → Bool
  | [], _ => true
  | _ :: _, [] => false
  | a :: as, b :: bs =>
    if a.toNat < b.toNat then true
    else if b.toNat < a.toNat then false
    else charListLe as bs

/-- JavaScript string comparison `a <= b` (code-unit lexicographic); used by
the source to compare ISO `YYYY-MM-DD` date strings. -/
def jsStrLe (a b : String) : Bool := charListLe a.data b.data

/-- ASCII lower-casing of one character, the case-folding relevant to
`localeCompare` on ingredient names. -/
def toLowerChar (c : Char) : Char :=
  if 65 ≤ c.toNat && c.toNat ≤ 90 then Char.ofNat (c.toNat + 32) else c

/-- Model of `a.localeCompare(b) <= 0`: case-insensitive lexicographic
comparison (spec §4.3: case-independent lexicographic sort). -/
def localeLe (a b : String) : Bool :=
  charListLe (a.data.map toLowerChar) (b.data.map toLowerChar)

/-- Macro Aggregator, `calculateTotalMacros` (src/App.tsx lines 148-155):
a reduce over the ingredient rows starting from all-zero totals, adding
`Number(field) || 0` for each of the four macro fields. -/
def macroStep (acc : MacroData) (curr : IngredientItem) : MacroData :=
  { calories := acc.calories + curr.calories.toNumberOrZero
    protein := acc.protein + curr.protein.toNumberOrZero
    fat := acc.fat + curr.fat.toNumberOrZero
    carbs := acc.carbs + curr.carbs.toNumberOrZero }

def calculateTotalMacros (ingredients : List IngredientItem) : MacroData :=
  ingredients.foldl macroStep
    { calories := 0, protein := 0, fat := 0, carbs := 0 }

/-- Specification-side totals: the field-wise sum over the sequence, with
non-numeric or missing fields contributing 0.  Stated from the spec's
words for comparison with `calculateTotalMacros`. -/
def fieldwiseMacroSums (ingredients : List IngredientItem) : MacroData :=
  { calories := (ingredients.map (fun i => i.calories.toNumberOrZero)).sum
    protein := (ingredients.map (fun i => i.protein.toNumberOrZero)).sum
    fat := (ingredients.map (fun i => i.fat.toNumberOrZero)).sum
    carbs := (ingredients.map (fun i => i.carbs.toNumberOrZero)).sum }

/-- Planner date assignment, `assignToDate` (src/App.tsx lines 294-307),
restricted to its effect on the week plan: when a target date is pending,
remove any existing entry for that date and append the new `DayPlan`;
when no target date is pending the handler returns early. -/
def assignToDate (weekPlan : List DayPlan) (selectingForDate : Option String)
    (recipeId : String) (variation : VariationTag) : List DayPlan :=
  match selectingForDate with
  | none => weekPlan
  | some d =>
    let newPlanItem : DayPlan := { date := d, recipeId := some recipeId, variation := some variation }
    (weekPlan.filter fun p => p.date != d) ++ [newPlanItem]

/-- Planner date clear, `clearDate` (src/App.tsx lines 309-311). -/
def clearDate (weekPlan : List DayPlan) (date : String) : List DayPlan :=
  weekPlan.filter fun p => p.date != date

/-- The week-plan invariant of spec §3: at most one `DayPlan` per date. -/
def atMostOnePerDate (weekPlan : List DayPlan) : Prop :=
  weekPlan.Pairwise fun a b => a.date ≠ b.date

/-- Decision procedure for the per-date invariant, so that witnesses can
discharge it on concrete plans by evaluation. -/
def decAtMostOnePerDate :
    (weekPlan : List DayPlan) → Decidable (atMostOnePerDate weekPlan)
  | [] => isTrue List.Pairwise.nil
  | x :: xs => by
    have ih : Decidable (atMostOnePerDate xs) := decAtMostOnePerDate xs
    unfold atMostOnePerDate at ih ⊢
    exact decidable_of_iff _ List.pairwise_cons.symm

instance (weekPlan : List DayPlan) : Decidable (atMostOnePerDate weekPlan) :=
  decAtMostOnePerDate weekPlan

/-- The component state of `App` (src/App.tsx lines 56-91) restricted to the
fields the planning state machine reads or writes; purely presentational
fields (refine text, file-input ref, week cursor, shopping view toggle) are
omitted. -/
structure AppCore where
  appState : ViewState
  analysis : Option RecipeAnalysis
  activeTab : VariationTag
  currentIngredients : List IngredientItem
  currentTitle : String
  cookbook : List SavedRecipe
  weekPlan : List DayPlan
  textInput : String
  selectedImages : List String
  selectedRecipeId : Option String
  selectingForDate : Option String
  errorMsg : Option String
  isLoading : Bool
deriving DecidableEq, Repr

/-- The RESULTS-tab sync effect (src/App.tsx lines 128-133): while in the
Results view with an analysis present, the editable buffer is re-projected
from the stored analysis for the active tab. -/
def syncResultsTab (s : AppCore) : AppCore :=
  if s.appState = ViewState.RESULTS then
    match s.analysis with
    | some a =>
      { s with
        currentIngredients := (a.variations.get s.activeTab).ingredients
        currentTitle := a.title }
    | none => s
  else s

/-- The COOKBOOK-tab sync effect (src/App.tsx lines 136-144): while in the
cookbook detail view, the editable buffer is re-projected from the selected
saved recipe for the active tab. -/
def syncCookbookTab (s : AppCore) : AppCore :=
  if s.appState = ViewState.COOKBOOK then
    match s.selectedRecipeId with
    | some rid =>
      match s.cookbook.find? (fun r => r.id == rid) with
      | some recipe =>
        { s with
          currentIngredients := (recipe.analysis.variations.get s.activeTab).ingredients
          currentTitle := recipe.title }
      | none => s
    | none => s
  else s

/-- Clicking a variation tab: `setActiveTab(tab)` followed by the two sync
effects, whose dependency lists include `activeTab`.  Setting the state to
its current value does not re-render, so the effects only run when the tab
actually changes. -/
def setActiveTab (s : AppCore) (t : VariationTag) : AppCore :=
  if t = s.activeTab then s
  else syncCookbookTab (syncResultsTab { s with activeTab := t })

/-- The "Add to Cookbook" action, `saveNewRecipe` (src/App.tsx lines
240-268).  `now` stands for `Date.now()` at the moment of the click. -/
def saveNewRecipe (s : AppCore) (now : Nat) : AppCore :=
  match s.analysis with
  | none => s
  | some analysis =>
    let finalAnalysis : RecipeAnalysis :=
      { analysis with
        title := s.currentTitle
        variations := analysis.variations.set s.activeTab
          { analysis.variations.get s.activeTab with ingredients := s.currentIngredients } }
    let newRecipe : SavedRecipe :=
      { id := toString now
        title := s.currentTitle
        timestamp := now
        analysis := finalAnalysis }
    { s with
      cookbook := newRecipe :: s.cookbook
      textInput := ""
      selectedImages := []
      appState := ViewState.COOKBOOK
      selectedRecipeId := some newRecipe.id }

/-- One outcome of the AI analyze gateway call: the returned analysis, or
the failure's message. -/
abbrev GatewayOutcome := Except String RecipeAnalysis

/-- The "analyze" action, `handleAnalyze` (src/App.tsx lines 181-196).  The
gateway is modelled as an oracle stream of outcomes; the handler consumes
exactly its head (one call, never retried) and returns the rest untouched,
or suspends forever (`none`) when no response ever arrives.  On success the
app enters Results holding the returned analysis with the active tab reset
to Balanced; on failure it enters Error carrying the failure's message. -/
def handleAnalyze (s : AppCore) (oracle : List GatewayOutcome) :
    Option (AppCore × List GatewayOutcome) :=
  let s1 : AppCore :=
    { s with isLoading := true, appState := ViewState.ANALYZING, errorMsg := none }
  match oracle with
  | [] => none
  | r :: rest =>
    match r with
    | .ok result =>
      some ({ s1 with
              analysis := some result
              appState := ViewState.RESULTS
              activeTab := VariationTag.Balanced
              isLoading := false }, rest)
    | .error m =>
      some ({ s1 with
              errorMsg := some m
              appState := ViewState.ERROR
              isLoading := false }, rest)

/-- One line entry of the shopping list (the records pushed onto
`allIngredients` in `renderShoppingList`, src/App.tsx lines 528-541). -/
structure ShoppingEntry where
  date : String
  title : String
  item : IngredientItem
  id : String
deriving DecidableEq, Repr

/-- Cookbook lookup `cookbook.find(r => r.id === plan.recipeId)`; a `null`
recipe id resolves to nothing because `r.id === null` is false for every
string `r.id`. -/
def findRecipe (cookbook : List SavedRecipe) (rid : Option String) :
    Option SavedRecipe :=
  cookbook.find? fun r => some r.id == rid

/-- The week filter of `renderShoppingList` (src/App.tsx line 525): plans
whose date lies in the inclusive `[startStr, endStr]` string interval and
whose `recipeId` is not null. -/
def activePred (startStr endStr : String) (p : DayPlan) : Bool :=
  jsStrLe startStr p.date && jsStrLe p.date endStr && p.recipeId != none

def activePlans (weekPlan : List DayPlan) (startStr endStr : String) :
    List DayPlan :=
  weekPlan.filter (activePred startStr endStr)

/-- The line entries one plan contributes (the loop body of src/App.tsx
lines 529-541): nothing unless the recipe id resolves and the plan carries a
variation tag; otherwise one entry per ingredient of that variation's list,
with the derived id `date-recipeId-index`. -/
def planEntries (cookbook : List SavedRecipe) (plan : DayPlan) :
    List ShoppingEntry :=
  match findRecipe cookbook plan.recipeId, plan.variation with
  | some recipe, some v =>
    ((recipe.analysis.variations.get v).ingredients).enum.map fun x =>
      { date := plan.date
        title := recipe.title
        item := x.2
        id := plan.date ++ "-" ++ recipe.id ++ "-" ++ toString x.1 }
  | _, _ => []

/-- The flat `allIngredients` collection of `renderShoppingList`
(src/App.tsx lines 528-541): the active plans in week-plan order, each
appending its entries in ingredient order. -/
def allIngredients (weekPlan : List DayPlan) (cookbook : List SavedRecipe)
    (startStr endStr : String) : List ShoppingEntry :=
  (activePlans weekPlan startStr endStr).flatMap (planEntries cookbook)

/-- The alphabetical ("A-Z") presentation (src/App.tsx line 543, rendered at
lines 624-653): the flat collection sorted by ingredient name with
`localeCompare`. -/
def alphaView (weekPlan : List DayPlan) (cookbook : List SavedRecipe)
    (startStr endStr : String) : List ShoppingEntry :=
  (allIngredients weekPlan cookbook startStr endStr).mergeSort
    fun a b => localeLe a.item.item b.item.item

/-- The by-date ("Recipe") presentation (src/App.tsx lines 584-623): active
plans sorted by date, each rendering one line per ingredient of its
variation with the same derived ids. -/
def byDateView (weekPlan : List DayPlan) (cookbook : List SavedRecipe)
    (startStr endStr : String) : List ShoppingEntry :=
  ((activePlans weekPlan startStr endStr).mergeSort
    fun a b => localeLe a.date b.date).flatMap (planEntries cookbook)

/-- Contribution condition as the spec's words state it (claim C6): date in
the inclusive interval and recipe id resolving to a cookbook entry. -/
def contributesPerSpec (cookbook : List SavedRecipe) (startStr endStr : String)
    (p : DayPlan) : Bool :=
  jsStrLe startStr p.date && jsStrLe p.date endStr
    && (findRecipe cookbook p.recipeId).isSome

/-- Contribution condition as the code has it: additionally the plan must
carry a variation tag (src/App.tsx line 531). -/
def contributes (cookbook : List SavedRecipe) (startStr endStr : String)
    (p : DayPlan) : Bool :=
  jsStrLe startStr p.date && jsStrLe p.date endStr
    && (findRecipe cookbook p.recipeId).isSome && p.variation.isSome

/-- A parsed JSON value, the possible results of `JSON.parse`. -/
inductive Json where
  | null
  | bool (b : Bool)
  | num (n : Int)
  | str (s : String)
  | arr (elems : List Json)
  | obj (fields : List (String × Json))

/-- Object-field lookup. -/
def Json.lookupField (fields : List (String × Json)) (k : String) : Option Json :=
  (fields.find? fun f => f.1 == k).map fun f => f.2

/-- JavaScript property access on a parsed-JSON value; `none` is
`undefined`.  Arrays and strings expose `length` and numeric indices. -/
def jsGetField : Json → String → Option Json
  | .obj fs, k => Json.lookupField fs k
  | .arr l, k =>
    if k == "length" then some (.num l.length)
    else (k.toNat?).bind fun i => l.get? i
  | .str s, k =>
    if k == "length" then some (.num s.length)
    else (k.toNat?).bind fun i => (s.data.get? i).map fun c => .str (String.mk [c])
  | _, _ => none

/-- JavaScript truthiness of a possibly-undefined value. -/
def jsTruthy : Option Json → Bool
  | none => false
  | some .null => false
  | some (.bool b) => b
  | some (.num n) => n != 0
  | some (.str s) => s != ""
  | some (.arr _) => true
  | some (.obj _) => true

/-- The test `x > 0` applied to a `length` lookup, which on the reachable
receivers (arrays, strings, objects without a numeric `length`) is either a
number or `undefined`; `undefined > 0` is false. -/
def jsGtZero : Option Json → Bool
  | some (.num n) => decide (0 < n)
  | _ => false

/-- Property access that can throw: reading a field of `undefined` or
`null` raises a TypeError. -/
def jsGetFieldChecked (v : Option Json) (k : String) : Except Unit (Option Json) :=
  match v with
  | none => .error ()
  | some .null => .error ()
  | some j => .ok (jsGetField j k)

/-- The guarded cookbook branch of the load effect (src/App.tsx lines
102-113): inside try/catch, `parsed.length > 0 && !parsed[0].analysis`
resets the cookbook to `[]`, otherwise the parsed value is applied
verbatim; a thrown TypeError is caught and leaves the default in place
(`none`). -/
def cookbookStep (j : Json) : Option Json :=
  if jsGtZero (jsGetField j "length") then
    match jsGetFieldChecked (jsGetField j "0") "analysis" with
    | .error _ => none
    | .ok av => if jsTruthy av then some j else some (Json.arr [])
  else some j

/-- A persisted slot as found in the browser store: absent, present but
unparseable (JSON.parse throws), or parsed to a value. -/
inductive Stored where
  | absent
  | malformed
  | value (j : Json)

/-- The in-memory images of the four persisted slots, as raw JSON values:
nothing in the load effect converts or validates them beyond the cookbook
guard, so structurally arbitrary values can land here. -/
structure PersistedState where
  cookbook : Json
  weekPlan : Json
  userSettings : Json
  checkedItems : Json

/-- DEFAULT_SETTINGS (src/App.tsx lines 9-26) as a JSON value. -/
def defaultSettingsJson : Json :=
  Json.obj
    [ ("name", Json.str "Athlete")
    , ("weight", Json.num 72)
    , ("activityLevel", Json.str "active")
    , ("targetCalories", Json.num 700)
    , ("targetProtein", Json.num 40)
    , ("targetCarbs", Json.num 50)
    , ("inventory", Json.obj
        [ ("oven", Json.bool false)
        , ("blender", Json.bool false)
        , ("castIron", Json.bool false)
        , ("wok", Json.bool false)
        , ("kitchenAid", Json.bool false)
        , ("nonStickPan", Json.bool false)
        , ("airFryer", Json.bool false) ])
    , ("excludedIngredients", Json.str "") ]

/-- The initial in-memory state before the load effect runs. -/
def initialPersisted : PersistedState :=
  { cookbook := Json.arr []
    weekPlan := Json.arr []
    userSettings := defaultSettingsJson
    checkedItems := Json.arr [] }

/-- The mount-time load effect (src/App.tsx lines 96-117), run over the four
slots in source order.  Only the cookbook slot sits in a try/catch; for the
other three, `JSON.parse` on a malformed value throws out of the effect
(modelled as `Except.error`), and a parsed value is applied with no
structural validation.  `new Set(JSON.parse(savedChecks))` additionally
throws when the parsed value is not iterable (not an array, string, or
null). -/
def loadFromStorage (cb wp st ck : Stored) (s0 : PersistedState) :
    Except Unit PersistedState := do
  let s1 : PersistedState :=
    match cb with
    | .absent => s0
    | .malformed => s0
    | .value j =>
      match cookbookStep j with
      | none => s0
      | some v => { s0 with cookbook := v }
  let s2 : PersistedState ←
    match wp with
    | .absent => pure s1
    | .malformed => throw ()
    | .value j => pure { s1 with weekPlan := j }
  let s3 : PersistedState ←
    match st with
    | .absent => pure s2
    | .malformed => throw ()
    | .value j => pure { s2 with userSettings := j }
  match ck with
  | .absent => pure s3
  | .malformed => throw ()
  | .value j =>
    (match j with
     | .arr l => pure { s3 with checkedItems := Json.arr l }
     | .str s => pure
         { s3 with checkedItems := Json.arr (s.data.map fun c => Json.str (String.mk [c])) }
     | .null => pure { s3 with checkedItems := Json.arr [] }
     | _ => throw ())

/-! Concrete fixtures for witnesses and counterexamples. -/

def ingTofu : IngredientItem :=
  { amount := "200g", item := "Tofu", calories := .num 150, protein := .num 20
    fat := .num 5, carbs := .num 3 }

def ingRice : IngredientItem :=
  { amount := "100g", item := "Rice", calories := .num 130, protein := .num 3
    fat := .num 0, carbs := .num 29 }

def ingSeitan : IngredientItem :=
  { amount := "150g", item := "Seitan", calories := .num 180, protein := .num 35
    fat := .num 2, carbs := .num 7 }

def analysisEx : RecipeAnalysis :=
  { title := "Tofu Bowl"
    original_macros := { calories := 330, protein := 23, fat := 5, carbs := 32 }
    variations :=
      { Proteins := { ingredients := [ingSeitan], notes := "protein", steps := [] }
        Balanced := { ingredients := [ingTofu, ingRice], notes := "balanced", steps := [] }
        Carbs := { ingredients := [ingRice], notes := "carbs", steps := [] } } }

def recipeA : SavedRecipe :=
  { id := "A", title := "Tofu Bowl", timestamp := 1718000000000, analysis := analysisEx }

def cookbookEx : List SavedRecipe := [recipeA]

/-- A plan inside the sample week whose recipe id resolves but whose
variation field is absent. -/
def planNoVar : DayPlan :=
  { date := "2024-06-10", recipeId := some "A", variation := none }

def weekPlanEx : List DayPlan :=
  [ { date := "2024-06-10", recipeId := some "A", variation := some .Balanced }
  , { date := "2024-06-11", recipeId := some "B", variation := some .Carbs } ]

def appCoreEx : AppCore :=
  { appState := ViewState.RESULTS
    analysis := some analysisEx
    activeTab := VariationTag.Balanced
    currentIngredients := [ingSeitan]
    currentTitle := "My Bowl"
    cookbook := []
    weekPlan := []
    textInput := "tofu and rice"
    selectedImages := ["img0"]
    selectedRecipeId := none
    selectingForDate := none
    errorMsg := none
    isLoading := false }

/-! Helper lemmas. -/

theorem VariationMap.get_set_self (m : VariationMap) (t : VariationTag)
    (rv : RecipeVariation) : (m.set t rv).get t = rv := by
  cases t <;> rfl

theorem VariationMap.get_set_ne (m : VariationMap) (t t' : VariationTag)
    (rv : RecipeVariation) (h : t' ≠ t) : (m.set t rv).get t' = m.get t' := by
  cases t <;> cases t' <;> first | rfl | exact absurd rfl h

theorem macroFoldl (l : List IngredientItem) (acc : MacroData) :
    l.foldl macroStep acc =
      { calories := acc.calories + (l.map fun i => i.calories.toNumberOrZero).sum
        protein := acc.protein + (l.map fun i => i.protein.toNumberOrZero).sum
        fat := acc.fat + (l.map fun i => i.fat.toNumberOrZero).sum
        carbs := acc.carbs + (l.map fun i => i.carbs.toNumberOrZero).sum } := by
  induction l generalizing acc with
  | nil => simp
  | cons x xs ih =>
    simp only [List.foldl_cons, List.map_cons, List.sum_cons, ih, macroStep]
    simp [MacroData.mk.injEq]
    omega

theorem filter_date_of_filter_ne (wp : List DayPlan) (d : String) :
    (wp.filter fun p => p.date != d).filter (fun p => p.date == d) = [] := by
  rw [List.filter_eq_nil_iff]
  intro a ha
  have h2 := (List.mem_filter.mp ha).2
  simp only [bne_iff_ne, ne_eq] at h2
  simp [h2]

/-! Theorems for the claims. -/

/-- C2: for every (possibly empty) ingredient sequence,
`calculateTotalMacros` returns the field-wise sum of (calories, protein,
fat, carbs), with any non-numeric or missing field contributing 0, and the
empty sequence yields (0, 0, 0, 0). -/
theorem calculateTotalMacros_spec (ingredients : List IngredientItem) :
    calculateTotalMacros ingredients = fieldwiseMacroSums ingredients
    ∧ calculateTotalMacros []
        = { calories := 0, protein := 0, fat := 0, carbs := 0 } := by
  constructor
  · rw [calculateTotalMacros, macroFoldl, fieldwiseMacroSums]
    simp
  · rfl

/-- C1: assigning a recipe and variation to a pending date yields a plan
with exactly one DayPlan for that date, equal to the new assignment; a
second assignment to the same date leaves exactly the second pair; and the
at-most-one-DayPlan-per-date invariant is preserved. -/
theorem assignToDate_replaces (wp : List DayPlan) (d r1 r2 : String)
    (v1 v2 : VariationTag) (h : atMostOnePerDate wp) :
    (assignToDate wp (some d) r1 v1).filter (fun p => p.date == d)
        = [{ date := d, recipeId := some r1, variation := some v1 }]
    ∧ (assignToDate (assignToDate wp (some d) r1 v1) (some d) r2 v2).filter
        (fun p => p.date == d)
        = [{ date := d, recipeId := some r2, variation := some v2 }]
    ∧ atMostOnePerDate (assignToDate wp (some d) r1 v1) := by
  have key : ∀ (l : List DayPlan) (r : String) (v : VariationTag),
      (assignToDate l (some d) r v).filter (fun p => p.date == d)
        = [{ date := d, recipeId := some r, variation := some v }] := by
    intro l r v
    rw [assignToDate, List.filter_append, filter_date_of_filter_ne]
    simp
  refine ⟨key wp r1 v1, key _ r2 v2, ?_⟩
  rw [assignToDate]
  unfold atMostOnePerDate at h ⊢
  rw [List.pairwise_append]
  refine ⟨h.filter _, List.pairwise_singleton _ _, ?_⟩
  intro a ha b hb
  have h2 := (List.mem_filter.mp ha).2
  simp only [bne_iff_ne, ne_eq] at h2
  simp only [List.mem_singleton] at hb
  subst hb
  exact h2

/-- Witness for C1: a two-day plan satisfying the invariant, with
2024-06-10 reassigned from recipe A/Balanced to recipe B/Carbs. -/
theorem assignToDate_replaces_witness :
    (assignToDate weekPlanEx (some "2024-06-10") "A" .Balanced).filter
        (fun p => p.date == "2024-06-10")
        = [{ date := "2024-06-10", recipeId := some "A", variation := some .Balanced }]
    ∧ (assignToDate (assignToDate weekPlanEx (some "2024-06-10") "A" .Balanced)
        (some "2024-06-10") "B" .Carbs).filter (fun p => p.date == "2024-06-10")
        = [{ date := "2024-06-10", recipeId := some "B", variation := some .Carbs }]
    ∧ atMostOnePerDate (assignToDate weekPlanEx (some "2024-06-10") "A" .Balanced) :=
  assignToDate_replaces weekPlanEx "2024-06-10" "A" "B" .Balanced .Carbs (by decide)

/-- C9: clearing a date removes every DayPlan for that date and keeps
exactly the DayPlans for other dates. -/
theorem clearDate_spec (wp : List DayPlan) (d : String) :
    (clearDate wp d).filter (fun p => p.date == d) = []
    ∧ ∀ p : DayPlan, p ∈ clearDate wp d ↔ p ∈ wp ∧ p.date ≠ d := by
  constructor
  · exact filter_date_of_filter_ne wp d
  · intro p
    rw [clearDate, List.mem_filter]
    simp

/-- C3: saving a new recipe from Results prepends to the cookbook a
SavedRecipe whose active variation carries the edited ingredient buffer
(notes and steps untouched), whose other two variations equal the original
analysis's, titled and timestamped from the current edit, and clears the
text and image input buffers. -/
theorem saveNewRecipe_spec (s : AppCore) (a : RecipeAnalysis) (now : Nat)
    (h : s.analysis = some a) :
    ∃ newRec : SavedRecipe,
      (saveNewRecipe s now).cookbook = newRec :: s.cookbook
      ∧ (newRec.analysis.variations.get s.activeTab).ingredients = s.currentIngredients
      ∧ (newRec.analysis.variations.get s.activeTab).notes
          = (a.variations.get s.activeTab).notes
      ∧ (newRec.analysis.variations.get s.activeTab).steps
          = (a.variations.get s.activeTab).steps
      ∧ (∀ t : VariationTag, t ≠ s.activeTab →
          newRec.analysis.variations.get t = a.variations.get t)
      ∧ newRec.title = s.currentTitle
      ∧ newRec.timestamp = now
      ∧ (saveNewRecipe s now).textInput = ""
      ∧ (saveNewRecipe s now).selectedImages = [] := by
  refine ⟨⟨toString now, s.currentTitle, now,
      ⟨s.currentTitle, a.original_macros,
        a.variations.set s.activeTab
          { a.variations.get s.activeTab with ingredients := s.currentIngredients }⟩⟩,
    ?_, ?_, ?_, ?_, ?_, rfl, rfl, ?_, ?_⟩
  · simp [saveNewRecipe, h]
  · simp [VariationMap.get_set_self]
  · simp [VariationMap.get_set_self]
  · simp [VariationMap.get_set_self]
  · intro t ht
    exact VariationMap.get_set_ne _ _ _ _ ht
  · simp [saveNewRecipe, h]
  · simp [saveNewRecipe, h]

/-- Witness for C3: saving the sample Results state (Balanced active, the
buffer edited to a single seitan row) at timestamp 123. -/
theorem saveNewRecipe_spec_witness :
    ∃ newRec : SavedRecipe,
      (saveNewRecipe appCoreEx 123).cookbook = newRec :: appCoreEx.cookbook
      ∧ (newRec.analysis.variations.get appCoreEx.activeTab).ingredients
          = appCoreEx.currentIngredients
      ∧ (newRec.analysis.variations.get appCoreEx.activeTab).notes
          = (analysisEx.variations.get appCoreEx.activeTab).notes
      ∧ (newRec.analysis.variations.get appCoreEx.activeTab).steps
          = (analysisEx.variations.get appCoreEx.activeTab).steps
      ∧ (∀ t : VariationTag, t ≠ appCoreEx.activeTab →
          newRec.analysis.variations.get t = analysisEx.variations.get t)
      ∧ newRec.title = appCoreEx.currentTitle
      ∧ newRec.timestamp = 123
      ∧ (saveNewRecipe appCoreEx 123).textInput = ""
      ∧ (saveNewRecipe appCoreEx 123).selectedImages = [] :=
  saveNewRecipe_spec appCoreEx analysisEx 123 rfl

/-- C5: in Results, switching the active variation from A to B and back to
A without saving restores the editable buffer to variation A's stored
ingredient list, discarding uncommitted edits; a switch means the target
tab differs from the current one (clicking the already-active tab leaves
the state unchanged, so the sync effect does not fire). -/
theorem resultsTabSwitch_restores (s : AppCore) (a : RecipeAnalysis)
    (A B : VariationTag) (hState : s.appState = ViewState.RESULTS)
    (hAnalysis : s.analysis = some a) (hTab : s.activeTab = A) (hNe : A ≠ B) :
    (setActiveTab (setActiveTab s B) A).currentIngredients
      = (a.variations.get A).ingredients := by
  subst hTab
  simp [setActiveTab, syncResultsTab, syncCookbookTab, hState, hAnalysis,
    hNe, Ne.symm hNe]

/-- Witness for C5: the sample Results state on Balanced, with an edited
buffer, switched to Carbs and back to Balanced. -/
theorem resultsTabSwitch_restores_witness :
    (setActiveTab (setActiveTab appCoreEx .Carbs) .Balanced).currentIngredients
      = (analysisEx.variations.get .Balanced).ingredients :=
  resultsTabSwitch_restores appCoreEx analysisEx .Balanced .Carbs rfl rfl rfl
    (by decide)

/-- C7: when the single analyze gateway call succeeds, the app enters
Results holding exactly the returned analysis with the active variation
reset to Balanced; when it fails, the app enters Error carrying the
failure's message; in both cases exactly the head of the gateway oracle is
consumed (the rest is returned untouched, i.e. the call is issued once and
never retried), and with no response the handler stays suspended. -/
theorem handleAnalyze_spec (s : AppCore) (a : RecipeAnalysis) (m : String)
    (rest : List GatewayOutcome) :
    handleAnalyze s (Except.ok a :: rest)
      = some ({ s with
                analysis := some a
                appState := ViewState.RESULTS
                activeTab := VariationTag.Balanced
                errorMsg := none
                isLoading := false }, rest)
    ∧ handleAnalyze s (Except.error m :: rest)
      = some ({ s with
                appState := ViewState.ERROR
                errorMsg := some m
                isLoading := false }, rest)
    ∧ handleAnalyze s [] = none :=
  ⟨rfl, rfl, rfl⟩

theorem findRecipe_none (cb : List SavedRecipe) : findRecipe cb none = none := by
  rw [findRecipe, List.find?_eq_none]
  intro r _
  simp

theorem planEntries_nil_of_noVariation (cb : List SavedRecipe) (p : DayPlan)
    (h : p.variation = none) : planEntries cb p = [] := by
  cases hf : findRecipe cb p.recipeId <;> simp [planEntries, h, hf]

theorem planEntries_nil_of_noRecipe (cb : List SavedRecipe) (p : DayPlan)
    (h : findRecipe cb p.recipeId = none) : planEntries cb p = [] := by
  cases hv : p.variation <;> simp [planEntries, h, hv]

theorem contributes_imp_active (cb : List SavedRecipe) (s e : String)
    (p : DayPlan) (h : contributes cb s e p = true) : activePred s e p = true := by
  simp only [contributes, Bool.and_eq_true] at h
  obtain ⟨⟨⟨h1, h2⟩, h3⟩, _⟩ := h
  simp only [activePred, Bool.and_eq_true]
  refine ⟨⟨h1, h2⟩, ?_⟩
  cases hrid : p.recipeId with
  | none => rw [hrid, findRecipe_none] at h3; simp at h3
  | some r => simp

theorem flatMap_active_eq_contributes (cb : List SavedRecipe) (s e : String)
    (wp : List DayPlan) :
    (wp.filter (activePred s e)).flatMap (planEntries cb)
      = (wp.filter (contributes cb s e)).flatMap (planEntries cb) := by
  induction wp with
  | nil => rfl
  | cons p wp ih =>
    rw [List.filter_cons, List.filter_cons]
    by_cases hc : contributes cb s e p = true
    · rw [if_pos (contributes_imp_active cb s e p hc), if_pos hc]
      simp [ih]
    · rw [if_neg hc]
      by_cases ha : activePred s e p = true
      · rw [if_pos ha]
        have hnil : planEntries cb p = [] := by
          simp only [activePred, Bool.and_eq_true] at ha
          obtain ⟨⟨h1, h2⟩, _⟩ := ha
          simp only [contributes, h1, h2, Bool.and_eq_true, not_and] at hc
          by_cases h3 : (findRecipe cb p.recipeId).isSome = true
          · have h4 := hc ⟨⟨trivial, trivial⟩, h3⟩
            exact planEntries_nil_of_noVariation cb p
              (Option.not_isSome_iff_eq_none.mp h4)
          · exact planEntries_nil_of_noRecipe cb p
              (Option.not_isSome_iff_eq_none.mp h3)
        simp [hnil, ih]
      · rw [if_neg ha]
        exact ih

/-- C4: for every week plan, cookbook and date interval, the by-date view
and the alphabetical view of the shopping list are permutations of each
other: the same multiset of line entries, differing only in order. -/
theorem shoppingViews_perm (wp : List DayPlan) (cb : List SavedRecipe)
    (startStr endStr : String) :
    (byDateView wp cb startStr endStr).Perm (alphaView wp cb startStr endStr) := by
  have h1 : ((activePlans wp startStr endStr).mergeSort
      fun a b => localeLe a.date b.date).Perm (activePlans wp startStr endStr) :=
    List.mergeSort_perm _ _
  have h2 := List.Perm.flatMap_right (planEntries cb) h1
  have h3 : ((allIngredients wp cb startStr endStr).mergeSort
      fun a b => localeLe a.item.item b.item.item).Perm
      (allIngredients wp cb startStr endStr) :=
    List.mergeSort_perm _ _
  exact h2.trans h3.symm

/-- Counterexample to C6 as stated: `planNoVar` lies in the sample week and
its recipe id resolves to `recipeA`, every variation of which holds one
ingredient, so under the claim's contribution condition it would contribute
a line entry; yet the aggregation yields no entry at all, because the plan
carries no variation tag. -/
theorem contributes_iff_fails :
    contributesPerSpec cookbookEx "2024-06-09" "2024-06-15" planNoVar = true
    ∧ ((recipeA.analysis.variations.get .Proteins).ingredients).length = 1
    ∧ ((recipeA.analysis.variations.get .Balanced).ingredients).length = 2
    ∧ ((recipeA.analysis.variations.get .Carbs).ingredients).length = 1
    ∧ allIngredients [planNoVar] cookbookEx "2024-06-09" "2024-06-15" = [] := by
  refine ⟨by decide, by decide, by decide, by decide, rfl⟩

/-- C6 (amended): the aggregation produces one line entry per ingredient of
each contributing DayPlan — carrying the source date, the recipe title, the
ingredient, and the derived id date-recipeId-index — and a DayPlan
contributes if and only if its date lies in the inclusive interval, its
recipeId resolves to an existing cookbook entry, AND its variation field is
present. -/
theorem allIngredients_spec (wp : List DayPlan) (cb : List SavedRecipe)
    (startStr endStr : String) (p : DayPlan) (r : SavedRecipe)
    (v : VariationTag) (hr : findRecipe cb p.recipeId = some r)
    (hv : p.variation = some v) :
    allIngredients wp cb startStr endStr
      = (wp.filter (contributes cb startStr endStr)).flatMap (planEntries cb)
    ∧ p.recipeId = some r.id
    ∧ planEntries cb p
      = ((r.analysis.variations.get v).ingredients).enum.map (fun x =>
          { date := p.date, title := r.title, item := x.2,
            id := p.date ++ "-" ++ r.id ++ "-" ++ toString x.1 }) := by
  refine ⟨?_, ?_, ?_⟩
  · rw [allIngredients, activePlans]
    exact flatMap_active_eq_contributes cb startStr endStr wp
  · have h2 := List.find?_some hr
    rw [beq_iff_eq] at h2
    exact h2.symm
  · simp [planEntries, hr, hv]

/-- Witness for C6 (amended): the sample cookbook and a Balanced plan for
2024-06-10 resolving to recipe A. -/
theorem allIngredients_spec_witness :
    allIngredients weekPlanEx cookbookEx "2024-06-09" "2024-06-15"
      = (weekPlanEx.filter (contributes cookbookEx "2024-06-09" "2024-06-15")).flatMap
          (planEntries cookbookEx)
    ∧ (DayPlan.mk "2024-06-10" (some "A") (some .Balanced)).recipeId = some recipeA.id
    ∧ planEntries cookbookEx (DayPlan.mk "2024-06-10" (some "A") (some .Balanced))
      = ((recipeA.analysis.variations.get .Balanced).ingredients).enum.map (fun x =>
          { date := "2024-06-10", title := recipeA.title, item := x.2,
            id := "2024-06-10" ++ "-" ++ recipeA.id ++ "-" ++ toString x.1 }) :=
  allIngredients_spec weekPlanEx cookbookEx "2024-06-09" "2024-06-15"
    (DayPlan.mk "2024-06-10" (some "A") (some .Balanced)) recipeA .Balanced rfl rfl

/-- C10: a DayPlan whose variation field is absent contributes zero line
entries: its own entry list is empty and prepending it to any week plan
leaves the shopping-list aggregation unchanged. -/
theorem noVariation_noEntries (wp : List DayPlan) (cb : List SavedRecipe)
    (startStr endStr : String) (p : DayPlan) (h : p.variation = none) :
    planEntries cb p = []
    ∧ allIngredients (p :: wp) cb startStr endStr
        = allIngredients wp cb startStr endStr := by
  have h1 := planEntries_nil_of_noVariation cb p h
  refine ⟨h1, ?_⟩
  rw [allIngredients, allIngredients, activePlans, activePlans, List.filter_cons]
  by_cases ha : activePred startStr endStr p = true
  · rw [if_pos ha]
    simp [h1]
  · rw [if_neg ha]

/-- Witness for C10: `planNoVar` has a date inside the sample week and a
recipe id resolving to the sample cookbook, yet adds nothing. -/
theorem noVariation_noEntries_witness :
    planEntries cookbookEx planNoVar = []
    ∧ allIngredients (planNoVar :: weekPlanEx) cookbookEx "2024-06-09" "2024-06-15"
        = allIngredients weekPlanEx cookbookEx "2024-06-09" "2024-06-15" :=
  noVariation_noEntries weekPlanEx cookbookEx "2024-06-09" "2024-06-15" planNoVar rfl

/-- C8: evaluation of the load effect at the failing input.  A malformed
WeekPlan slot (unparseable JSON) makes the effect throw out of the
uncaught `JSON.parse`, aborting the load — not the treated-as-absent
behaviour the spec requires, which the all-absent run exhibits. -/
theorem loadFromStorage_weekPlanMalformed :
    loadFromStorage Stored.absent Stored.malformed Stored.absent Stored.absent
        initialPersisted = Except.error ()
    ∧ loadFromStorage Stored.absent Stored.absent Stored.absent Stored.absent
        initialPersisted = Except.ok initialPersisted :=
  ⟨rfl, rfl⟩

end Recipe33
